import Mathlib

/-
  Verification development for the go-email-verifier repository.

  The Go package verifies an email address through a pipeline:
  syntax parse (net/mail ParseAddress), disposable-domain cache check,
  NS lookup, MX lookup and an SMTP probe, with a background hourly
  refresh of the disposable-domain cache.

  Shallow embedding: the external capabilities the pipeline calls
  (mail.ParseAddress, the disposable-domain cache contents, the DNS
  resolver, the TCP dialer / SMTP client, and the HTTP fetch of the
  domain list) are modelled as an oracle record `World`.  The pipeline
  itself (`verifyStages`, `Verify`, `refresh`) is translated from
  src/verifier.go statement by statement; each stage additionally
  records the observable calls it performed in an event trace, so that
  properties such as "no network I/O is performed" become statements
  about the trace.
-/

namespace GoEmailVerifier

/-- Configuration switches, translated from `type Config struct` in
src/verifier.go (field order as in the source). -/
structure Config where
  ValidateMX : Bool
  ValidateSMTP : Bool
  ValidateDNS : Bool
  BlockDisposable : Bool
deriving DecidableEq, Repr

/-- An MX record as used by the pipeline: `net.MX` has a host and a
preference value (uint16 in Go; preferences here are naturals, no
arithmetic beyond comparison is performed on them). -/
structure MX where
  Host : String
  Pref : Nat
deriving DecidableEq, Repr

/-- The closed error taxonomy observable from `Verify`.
`invalidFormat`, `disposableEmail` and `noMXRecords` model the package
sentinels `ErrInvalidSyntax`, `ErrDisposableEmail` and
`ErrNoMXRecords` (created with errors.New, hence distinct by identity
from every error produced elsewhere).  `parseFailure` models the error
value returned by mail.ParseAddress, `netFailure` a native
resolver/dialer/SMTP error surfaced as-is, and `ctxCanceled` the value
of ctx.Err() for a done context. -/
inductive GoErr where
  | parseFailure (msg : String)
  | invalidFormat
  | disposableEmail
  | noMXRecords
  | netFailure (msg : String)
  | ctxCanceled
deriving DecidableEq, Repr

/-- Observable calls made by the pipeline, in execution order. -/
inductive Event where
  | parseAddress (input : String)
  | disposableCheck (domain : String)
  | lookupNS (domain : String)
  | lookupMX (domain : String)
  | dial (addr : String)
  | smtpMail (sender : String)
  | smtpRcpt (rcpt : String)
deriving DecidableEq, Repr

/-- An event is a network operation unless it is the in-process parse
or the in-process cache lookup. -/
def Event.isNetwork : Event → Bool
  | .parseAddress _ => false
  | .disposableCheck _ => false
  | .lookupNS _ => true
  | .lookupMX _ => true
  | .dial _ => true
  | .smtpMail _ => true
  | .smtpRcpt _ => true

/-- Oracle record: outcomes of every external capability the pipeline
consults.  `disposableDomains` is the current contents of the shared
disposable-domain cache (the Go global map; membership is all that is
ever read from it).  `fetch` is the outcome of getDisposableDomains
(HTTP GET plus JSON decode, yielding the list of domains). -/
structure World where
  parseAddress : String → Except String String
  disposableDomains : List String
  lookupNS : String → Except String Unit
  lookupMX : String → Except String (List MX)
  dial : String → Except String Unit
  smtpMail : String → String → Except String Unit
  smtpRcpt : String → String → Except String Unit
  fetch : Except String (List String)

/-- Constant fromEmail in src/verifier.go. -/
def fromEmail : String := "user@example.com"

/-- Constant smtpPort in src/verifier.go. -/
def smtpPort : Nat := 25

/-- The address handed to smtp.Dial:
fmt.Sprintf with host and smtpPort. -/
def mkSMTPAddr (host : String) : String :=
  host ++ ":" ++ toString smtpPort

/-- Index of the last occurrence of the at-sign, as computed by
strings.LastIndex(s, at-sign); `none` models the result -1.  Character
indices agree with Go's byte indices here because the at-sign is a
one-byte character that cannot occur inside the UTF-8 encoding of any
other character. -/
def lastAtIdx : List Char → Option Nat
  | [] => none
  | c :: cs =>
    match lastAtIdx cs with
    | some j => some (j + 1)
    | none => if c = '@' then some 0 else none

/-- Domain extraction from a parsed address, translated from
src/verifier.go lines 138-144: i := strings.LastIndex(addr, at-sign);
reject i < 0 and i == len(addr)-1 (both yield ErrInvalidSyntax),
otherwise take addr[i+1:].  Since i is a valid index, i == len-1 is
stated as i+1 == len. -/
def emailDomain (addr : String) : Option String :=
  match lastAtIdx addr.toList with
  | none => none
  | some i =>
    if i + 1 = addr.toList.length then none
    else some (String.mk (addr.toList.drop (i + 1)))

/-- Lowest-preference MX selection, translated from src/verifier.go
lines 177-185: start from records[0], scan all records, replace the
current best only when the preference is strictly lower. -/
def selectMX : List MX → MX
  | [] => { Host := "", Pref := 0 }
  | r :: rs =>
    (r :: rs).foldl (fun best x => if x.Pref < best.Pref then x else best) r

/-- Short-circuit composition of two stages: when the first stage
fails, the second never executes (its events do not occur). -/
def seqStage (s₁ s₂ : Option GoErr × List Event) : Option GoErr × List Event :=
  match s₁ with
  | (some e, tr) => (some e, tr)
  | (none, tr) => (s₂.1, tr ++ s₂.2)

/-- Disposable-domain stage, from src/verifier.go lines 146-155: only
when BlockDisposable is set, look the domain up in the shared cache
(read lock elided: the membership answer is the cache contents of this
World) and fail with ErrDisposableEmail on a hit. -/
def disposableStage (w : World) (domain : String) (conf : Config) :
    Option GoErr × List Event :=
  if conf.BlockDisposable then
    if w.disposableDomains.contains domain then
      (some GoErr.disposableEmail, [Event.disposableCheck domain])
    else (none, [Event.disposableCheck domain])
  else (none, [])

/-- DNS stage, from src/verifier.go lines 156-163: only when
ValidateDNS is set, perform the NS lookup and surface any resolver
error as-is. -/
def dnsStage (w : World) (domain : String) (conf : Config) :
    Option GoErr × List Event :=
  if conf.ValidateDNS then
    match w.lookupNS domain with
    | .error e => (some (GoErr.netFailure e), [Event.lookupNS domain])
    | .ok _ => (none, [Event.lookupNS domain])
  else (none, [])

/-- SMTP probe, from src/verifier.go lines 186-205: dial the selected
host on port 25, then MAIL FROM with the fixed sender, then RCPT TO
with the raw input string; every error is surfaced as-is. -/
def smtpStage (w : World) (input host : String) : Option GoErr × List Event :=
  match w.dial (mkSMTPAddr host) with
  | .error e => (some (GoErr.netFailure e), [Event.dial (mkSMTPAddr host)])
  | .ok _ =>
    match w.smtpMail (mkSMTPAddr host) fromEmail with
    | .error e =>
      (some (GoErr.netFailure e),
        [Event.dial (mkSMTPAddr host), Event.smtpMail fromEmail])
    | .ok _ =>
      match w.smtpRcpt (mkSMTPAddr host) input with
      | .error e =>
        (some (GoErr.netFailure e),
          [Event.dial (mkSMTPAddr host), Event.smtpMail fromEmail,
            Event.smtpRcpt input])
      | .ok _ =>
        (none,
          [Event.dial (mkSMTPAddr host), Event.smtpMail fromEmail,
            Event.smtpRcpt input])

/-- MX stage with nested SMTP probe, from src/verifier.go lines
164-206: gated on ValidateMX or ValidateSMTP; surface resolver errors
as-is; fail with ErrNoMXRecords on an empty record list; when
ValidateSMTP is set, probe the lowest-preference host. -/
def mxSmtpStage (w : World) (input domain : String) (conf : Config) :
    Option GoErr × List Event :=
  if conf.ValidateMX || conf.ValidateSMTP then
    match w.lookupMX domain with
    | .error e => (some (GoErr.netFailure e), [Event.lookupMX domain])
    | .ok records =>
      if records.length < 1 then
        (some GoErr.noMXRecords, [Event.lookupMX domain])
      else if conf.ValidateSMTP then
        match smtpStage w input (selectMX records).Host with
        | (e, tr) => (e, Event.lookupMX domain :: tr)
      else (none, [Event.lookupMX domain])
  else (none, [])

/-- The pipeline body verifyWithChannel from src/verifier.go lines
129-208: parse the input (errors from mail.ParseAddress are sent
as-is), extract the domain after the last at-sign of the parsed
address (ErrInvalidSyntax when absent or empty), then run the
disposable, DNS and MX/SMTP stages in order with short-circuiting.
The first component is the value the goroutine sends on its channel
(`none` models a channel closed without a send, read as a nil error). -/
def verifyStages (w : World) (input : String) (conf : Config) :
    Option GoErr × List Event :=
  match w.parseAddress input with
  | .error e => (some (GoErr.parseFailure e), [Event.parseAddress input])
  | .ok addr =>
    match emailDomain addr with
    | none => (some GoErr.invalidFormat, [Event.parseAddress input])
    | some domain =>
      match seqStage (disposableStage w domain conf)
          (seqStage (dnsStage w domain conf)
            (mxSmtpStage w input domain conf)) with
      | (e, tr) => (e, Event.parseAddress input :: tr)

/-- Verify from src/verifier.go lines 104-120.  The pipeline goroutine
is spawned by verifyWithTimeout before the select executes, so its
stages run (and their events occur) in every case; the trace component
records them.  `ctxDone` states whether ctx.Done() is already closed
on entry; `goroutineWon` states whether the spawned goroutine had
already completed and won the select race against the done context (Go
picks randomly among ready cases; with a live context the select can
only take the channel case). -/
def Verify (w : World) (ctxDone goroutineWon : Bool) (input : String)
    (conf : Config) : (Bool × Option GoErr) × List Event :=
  match verifyStages w input conf with
  | (chErr, tr) =>
    if ctxDone && !goroutineWon then ((false, some GoErr.ctxCanceled), tr)
    else
      match chErr with
      | some e => ((false, some e), tr)
      | none => ((true, none), tr)

/-- The body of refresh from src/verifier.go lines 90-102: fetch the
domain list; on failure return the error with the cache untouched, on
success replace the cache wholesale. -/
def refresh (w : World) (cache : List String) : List String × Option String :=
  match w.fetch with
  | .error e => (cache, some e)
  | .ok domains => (domains, none)

/-- One iteration of loop from src/verifier.go lines 84-88: call
refresh and discard its return value. -/
def tick (w : World) (cache : List String) : List String :=
  (refresh w cache).1

/-- Boolean success test on an Except value. -/
def exceptOk {α : Type} : Except String α → Bool
  | .ok _ => true
  | .error _ => false

/-- The pipeline reaches the MX stage for this domain exactly when the
disposable check does not fire and the DNS stage, when enabled,
succeeds. -/
def passesEarlyStages (w : World) (domain : String) (conf : Config) : Bool :=
  !(conf.BlockDisposable && w.disposableDomains.contains domain) &&
    (!conf.ValidateDNS || exceptOk (w.lookupNS domain))

/-- The pipeline will reach its MX stage: parsing succeeds, a domain is
extracted, and the disposable and DNS stages pass. -/
def reachesMX (w : World) (input : String) (conf : Config) : Bool :=
  match w.parseAddress input with
  | .error _ => false
  | .ok addr =>
    match emailDomain addr with
    | none => false
    | some domain => passesEarlyStages w domain conf

/-- The minimum preference among a first record and the rest, computed
as a left fold the way the selection loop traverses the records. -/
def minPref (r : MX) (rs : List MX) : Nat :=
  rs.foldl (fun m x => min m x.Pref) r.Pref

/-- Concrete parse oracle used by the sample worlds, faithful to
mail.ParseAddress on every input it is applied to below: a bare
address parses to itself, a display-name form parses to the bare
address inside the angle brackets, and a string containing no at-sign
fails to parse (an addr-spec requires one). -/
def sampleParse (s : String) : Except String String :=
  if s = "a@b.c" then Except.ok ("a@b.c")
  else if s = "x@mailinator.com" then Except.ok ("x@mailinator.com")
  else if s = "Bob <bob@x.com>" then Except.ok ("bob@x.com")
  else Except.error ("mail: missing an at-sign")

/-- Sample MX answer: the three-record example from the specification. -/
def sampleMXRecords : List MX :=
  [{ Host := "hostA", Pref := 20 }, { Host := "hostB", Pref := 10 },
    { Host := "hostC", Pref := 10 }]

/-- Base sample world: parsing per `sampleParse`, a cache holding one
disposable domain, all network operations succeeding, the MX lookup
answering `sampleMXRecords`, and a failing fetch. -/
def wBase : World where
  parseAddress := sampleParse
  disposableDomains := ["mailinator.com"]
  lookupNS := fun _ => Except.ok ()
  lookupMX := fun _ => Except.ok sampleMXRecords
  dial := fun _ => Except.ok ()
  smtpMail := fun _ _ => Except.ok ()
  smtpRcpt := fun _ _ => Except.ok ()
  fetch := Except.error ("network down")

/-- Sample world whose disposable-domain cache is empty, as after a
failed initial fetch (the Go map is nil and every lookup misses). -/
def wEmptyCache : World :=
  { wBase with disposableDomains := [] }

/-- All four switches off. -/
def confNone : Config :=
  { ValidateMX := false, ValidateSMTP := false, ValidateDNS := false,
    BlockDisposable := false }

/-- Only ValidateDNS. -/
def confDNS : Config :=
  { ValidateMX := false, ValidateSMTP := false, ValidateDNS := true,
    BlockDisposable := false }

/-- Only ValidateSMTP. -/
def confSMTPOnly : Config :=
  { ValidateMX := false, ValidateSMTP := true, ValidateDNS := false,
    BlockDisposable := false }

/-- Only BlockDisposable. -/
def confBlock : Config :=
  { ValidateMX := false, ValidateSMTP := false, ValidateDNS := false,
    BlockDisposable := true }

/-- All four switches on. -/
def confFull : Config :=
  { ValidateMX := true, ValidateSMTP := true, ValidateDNS := true,
    BlockDisposable := true }

/-- A left fold by min never exceeds its initial value. -/
theorem foldl_min_le (rs : List MX) :
    ∀ p : Nat, rs.foldl (fun m x => min m x.Pref) p ≤ p := by
  induction rs with
  | nil => intro p; simp
  | cons x xs ih =>
    intro p
    simp only [List.foldl_cons]
    exact le_trans (ih (min p x.Pref)) (min_le_left _ _)

/-- One step of the minimum-preference fold matches one step of the
selection loop. -/
theorem minPref_cons (r x : MX) (xs : List MX) :
    minPref r (x :: xs) = minPref (if x.Pref < r.Pref then x else r) xs := by
  unfold minPref
  simp only [List.foldl_cons]
  congr 1
  by_cases h : x.Pref < r.Pref
  · simp [h, min_eq_right (le_of_lt h)]
  · simp [h, min_eq_left (le_of_not_lt h)]

/-- The selection loop never replaces the current best on the record it
started from. -/
theorem selectMX_cons (r : MX) (rs : List MX) :
    selectMX (r :: rs) =
      rs.foldl (fun best x => if x.Pref < best.Pref then x else best) r := by
  simp [selectMX]

/-- The selection loop computes the first record attaining the minimum
preference: a left fold that replaces only on strictly smaller
preference agrees with find? at the minimum. -/
theorem find_first_min_eq_foldl (rs : List MX) : ∀ r : MX,
    (r :: rs).find? (fun y => y.Pref == minPref r rs) =
      some (rs.foldl (fun best x => if x.Pref < best.Pref then x else best) r) := by
  induction rs with
  | nil =>
    intro r
    simp [minPref, List.find?_cons]
  | cons x xs ih =>
    intro r
    rw [List.foldl_cons, minPref_cons]
    by_cases hx : x.Pref < r.Pref
    · rw [if_pos hx]
      have hM : minPref x xs ≤ x.Pref := foldl_min_le xs x.Pref
      have hneg : ¬((fun y : MX => y.Pref == minPref x xs) r = true) := by
        simp only [beq_iff_eq]
        omega
      rw [@List.find?_cons_of_neg MX (fun y => y.Pref == minPref x xs) r
        (x :: xs) hneg]
      exact ih x
    · rw [if_neg hx]
      have hle : r.Pref ≤ x.Pref := Nat.le_of_not_lt hx
      have hM : minPref r xs ≤ r.Pref := foldl_min_le xs r.Pref
      by_cases hrM : r.Pref = minPref r xs
      · have hpos : ((fun y : MX => y.Pref == minPref r xs) r = true) := by
          simp only [beq_iff_eq]
          exact hrM
        rw [@List.find?_cons_of_pos MX (fun y => y.Pref == minPref r xs) r
          (x :: xs) hpos]
        have h2 := ih r
        rw [@List.find?_cons_of_pos MX (fun y => y.Pref == minPref r xs) r
          xs hpos] at h2
        exact h2
      · have hlt : minPref r xs < r.Pref :=
          lt_of_le_of_ne hM (fun h => hrM h.symm)
        have hneg1 : ¬((fun y : MX => y.Pref == minPref r xs) r = true) := by
          simp only [beq_iff_eq]
          omega
        have hneg2 : ¬((fun y : MX => y.Pref == minPref r xs) x = true) := by
          simp only [beq_iff_eq]
          omega
        rw [@List.find?_cons_of_neg MX (fun y => y.Pref == minPref r xs) r
          (x :: xs) hneg1,
          @List.find?_cons_of_neg MX (fun y => y.Pref == minPref r xs) x
          xs hneg2]
        have h2 := ih r
        rw [@List.find?_cons_of_neg MX (fun y => y.Pref == minPref r xs) r
          xs hneg1] at h2
        exact h2

/-- On a non-empty record list the selected record is the first one
attaining the minimum preference. -/
theorem selectMX_is_first_min (r : MX) (rs : List MX) :
    (r :: rs).find? (fun y => y.Pref == minPref r rs) =
      some (selectMX (r :: rs)) := by
  rw [selectMX_cons]
  exact find_first_min_eq_foldl rs r

/-- The trace of a Verify call is exactly the trace of the pipeline
goroutine, whatever the context state and race outcome. -/
theorem verify_trace_eq (w : World) (ctxDone goroutineWon : Bool)
    (input : String) (conf : Config) :
    (Verify w ctxDone goroutineWon input conf).2 =
      (verifyStages w input conf).2 := by
  unfold Verify
  cases h : verifyStages w input conf with
  | mk a b =>
    by_cases hc : (ctxDone && !goroutineWon) = true
    · simp [hc]
    · cases a <;> simp [hc]

/-- A passing disposable stage: no error, and the cache is consulted
exactly when the switch is on. -/
theorem disposableStage_pass (w : World) (domain : String) (conf : Config)
    (h : (conf.BlockDisposable && w.disposableDomains.contains domain) = false) :
    disposableStage w domain conf =
      (none, if conf.BlockDisposable then [Event.disposableCheck domain] else []) := by
  unfold disposableStage
  cases hb : conf.BlockDisposable
  · simp
  · rw [hb] at h
    simp only [Bool.true_and] at h
    simp only [h]
    simp

/-- A passing DNS stage: no error, and the resolver is consulted
exactly when the switch is on. -/
theorem dnsStage_pass (w : World) (domain : String) (conf : Config)
    (h : (!conf.ValidateDNS || exceptOk (w.lookupNS domain)) = true) :
    dnsStage w domain conf =
      (none, if conf.ValidateDNS then [Event.lookupNS domain] else []) := by
  unfold dnsStage
  cases hd : conf.ValidateDNS
  · simp
  · rw [hd] at h
    simp only [Bool.not_true, Bool.false_or] at h
    cases hns : w.lookupNS domain with
    | error e => rw [hns] at h; simp [exceptOk] at h
    | ok u => simp [hns]

/-- When parsing succeeds and the early stages pass, the pipeline
reduces to the MX stage, its trace listing the early-stage events in
order before the MX-stage events. -/
theorem verifyStages_reaches_mx (w : World) (input addr domain : String)
    (conf : Config)
    (hp : w.parseAddress input = Except.ok addr)
    (hd : emailDomain addr = some domain)
    (hpass : passesEarlyStages w domain conf = true) :
    verifyStages w input conf =
      ((mxSmtpStage w input domain conf).1,
        Event.parseAddress input ::
          ((if conf.BlockDisposable then [Event.disposableCheck domain] else []) ++
            ((if conf.ValidateDNS then [Event.lookupNS domain] else []) ++
              (mxSmtpStage w input domain conf).2))) := by
  unfold passesEarlyStages at hpass
  rw [Bool.and_eq_true] at hpass
  obtain ⟨h1, h2⟩ := hpass
  rw [Bool.not_eq_true'] at h1
  unfold verifyStages
  rw [hp]
  simp only [hd]
  rw [disposableStage_pass w domain conf h1, dnsStage_pass w domain conf h2]
  unfold seqStage
  simp

/-- The SMTP probe always dials the given host on the SMTP port. -/
theorem dial_mem_smtpStage (w : World) (input host : String) :
    Event.dial (mkSMTPAddr host) ∈ (smtpStage w input host).2 := by
  unfold smtpStage
  cases w.dial (mkSMTPAddr host) with
  | error e => simp
  | ok u =>
    cases w.smtpMail (mkSMTPAddr host) fromEmail with
    | error e => simp
    | ok u =>
      cases w.smtpRcpt (mkSMTPAddr host) input with
      | error e => simp
      | ok u => simp

/-- With SMTP validation on and a non-empty MX answer, the MX-stage
trace is the MX lookup followed by the probe of the selected host. -/
theorem mxSmtpStage_smtp_trace (w : World) (input domain : String)
    (conf : Config) (r : MX) (rs : List MX)
    (hsmtp : conf.ValidateSMTP = true)
    (hmx : w.lookupMX domain = Except.ok (r :: rs)) :
    (mxSmtpStage w input domain conf).2 =
      Event.lookupMX domain ::
        (smtpStage w input (selectMX (r :: rs)).Host).2 := by
  unfold mxSmtpStage
  rw [hsmtp, hmx]
  simp only [Bool.or_true, if_true]
  cases hs : smtpStage w input (selectMX (r :: rs)).Host with
  | mk e tr => simp [hs]

/-- C4: whenever the SMTP stage runs on a non-empty MX record list, the
dialed host is that of the record the selection loop picked, and that
record is the first one attaining the numerically minimum preference
(find? at the minimum preference returns exactly it, so a later
equal-preference record never displaces an earlier one). -/
theorem smtp_uses_first_min_mx (w : World) (input addr domain : String)
    (conf : Config) (r : MX) (rs : List MX) (ctxDone goroutineWon : Bool)
    (hp : w.parseAddress input = Except.ok addr)
    (hd : emailDomain addr = some domain)
    (hpass : passesEarlyStages w domain conf = true)
    (hsmtp : conf.ValidateSMTP = true)
    (hmx : w.lookupMX domain = Except.ok (r :: rs)) :
    Event.dial (mkSMTPAddr (selectMX (r :: rs)).Host) ∈
      (Verify w ctxDone goroutineWon input conf).2 ∧
    (r :: rs).find? (fun y => y.Pref == minPref r rs) =
      some (selectMX (r :: rs)) := by
  constructor
  · rw [verify_trace_eq,
      verifyStages_reaches_mx w input addr domain conf hp hd hpass]
    simp only [List.mem_cons, List.mem_append]
    right; right; right
    rw [mxSmtpStage_smtp_trace w input domain conf r rs hsmtp hmx]
    simp only [List.mem_cons]
    right
    exact dial_mem_smtpStage w input (selectMX (r :: rs)).Host
  · exact selectMX_is_first_min r rs

/-- C4 (witness): on the specification's example records
[(hostA, 20), (hostB, 10), (hostC, 10)] the pipeline dials hostB, the
first record attaining the minimum preference. -/
theorem smtp_uses_first_min_mx_witness :
    Event.dial (mkSMTPAddr (selectMX sampleMXRecords).Host) ∈
      (Verify wBase false false "a@b.c" confSMTPOnly).2 ∧
    selectMX sampleMXRecords = { Host := "hostB", Pref := 10 } :=
  ⟨(smtp_uses_first_min_mx wBase "a@b.c" "a@b.c" "b.c" confSMTPOnly
      { Host := "hostA", Pref := 20 }
      [{ Host := "hostB", Pref := 10 }, { Host := "hostC", Pref := 10 }]
      false false rfl (by decide) (by decide) rfl rfl).1,
    by decide⟩

/-- Membership in a conditional singleton trace forces the event. -/
theorem mem_if_singleton {α : Type} {e x : α} {c : Prop} [Decidable c]
    (h : e ∈ (if c then [x] else [])) : e = x := by
  split at h
  · simpa using h
  · simp at h

/-- When parsing fails the pipeline stops at the syntax stage. -/
theorem verifyStages_parse_error (w : World) (input : String) (conf : Config)
    (e : String) (hp : w.parseAddress input = Except.error e) :
    verifyStages w input conf =
      (some (GoErr.parseFailure e), [Event.parseAddress input]) := by
  unfold verifyStages
  rw [hp]

/-- When the parsed address has no at-sign or an empty domain the
pipeline stops at the syntax stage with ErrInvalidSyntax. -/
theorem verifyStages_no_domain (w : World) (input addr : String)
    (conf : Config) (hp : w.parseAddress input = Except.ok addr)
    (hd : emailDomain addr = none) :
    verifyStages w input conf =
      (some GoErr.invalidFormat, [Event.parseAddress input]) := by
  unfold verifyStages
  rw [hp]
  simp [hd]

/-- A disposable-cache hit stops the pipeline with ErrDisposableEmail
after the parse and the cache lookup only. -/
theorem verifyStages_disposable_hit (w : World) (input addr domain : String)
    (conf : Config) (hp : w.parseAddress input = Except.ok addr)
    (hd : emailDomain addr = some domain)
    (hb : conf.BlockDisposable = true)
    (hhit : w.disposableDomains.contains domain = true) :
    verifyStages w input conf =
      (some GoErr.disposableEmail,
        [Event.parseAddress input, Event.disposableCheck domain]) := by
  unfold verifyStages
  rw [hp]
  simp only [hd]
  have hds : disposableStage w domain conf =
      (some GoErr.disposableEmail, [Event.disposableCheck domain]) := by
    unfold disposableStage
    rw [hb, hhit]
    simp
  rw [hds]
  unfold seqStage
  simp

/-- A failing NS lookup stops the pipeline with the resolver's error
after the parse, the optional cache lookup and the NS lookup. -/
theorem verifyStages_dns_error (w : World) (input addr domain : String)
    (conf : Config) (e : String)
    (hp : w.parseAddress input = Except.ok addr)
    (hd : emailDomain addr = some domain)
    (hnb : (conf.BlockDisposable && w.disposableDomains.contains domain) = false)
    (hdns : conf.ValidateDNS = true)
    (hns : w.lookupNS domain = Except.error e) :
    verifyStages w input conf =
      (some (GoErr.netFailure e),
        Event.parseAddress input ::
          ((if conf.BlockDisposable then [Event.disposableCheck domain] else []) ++
            [Event.lookupNS domain])) := by
  unfold verifyStages
  rw [hp]
  simp only [hd]
  rw [disposableStage_pass w domain conf hnb]
  have hdr : dnsStage w domain conf =
      (some (GoErr.netFailure e), [Event.lookupNS domain]) := by
    unfold dnsStage
    rw [hdns, hns]
    simp
  rw [hdr]
  unfold seqStage
  simp

/-- The MX-stage trace contains an MX lookup exactly when the stage is
switched on by ValidateMX or ValidateSMTP. -/
theorem mx_mem_mxSmtpStage_iff (w : World) (input domain : String)
    (conf : Config) :
    (∃ d, Event.lookupMX d ∈ (mxSmtpStage w input domain conf).2) ↔
      (conf.ValidateMX || conf.ValidateSMTP) = true := by
  constructor
  · rintro ⟨d, hd⟩
    by_contra hg
    unfold mxSmtpStage at hd
    rw [if_neg hg] at hd
    simp at hd
  · intro hg
    refine ⟨domain, ?_⟩
    unfold mxSmtpStage
    rw [if_pos hg]
    cases hmx : w.lookupMX domain with
    | error e => simp
    | ok records =>
      by_cases hl : records.length < 1
      · simp [hl]
      · by_cases hs : conf.ValidateSMTP = true
        · cases hsm : smtpStage w input (selectMX records).Host with
          | mk e tr => simp [hl, hs, hsm]
        · simp [hl, hs]

/-- Any dial in the MX-stage trace comes strictly after the MX lookup
that heads that trace. -/
theorem dial_mem_mxSmtpStage (w : World) (input domain : String)
    (conf : Config) (a : String)
    (hdial : Event.dial a ∈ (mxSmtpStage w input domain conf).2) :
    ∃ t, (mxSmtpStage w input domain conf).2 = Event.lookupMX domain :: t ∧
      Event.dial a ∈ t := by
  revert hdial
  unfold mxSmtpStage
  split
  · split
    · intro hdial
      simp at hdial
    · split
      · intro hdial
        simp at hdial
      · split
        · split
          · intro hdial
            simp only [List.mem_cons] at hdial
            rcases hdial with h | h
            · simp at h
            · exact ⟨_, rfl, h⟩
        · intro hdial
          simp at hdial
  · intro hdial
    simp at hdial

/-- C5: an MX lookup occurs in a Verify call's trace exactly when
ValidateMX or ValidateSMTP is enabled and the pipeline reaches the MX
stage (syntax passed, no disposable hit, DNS passed or disabled);
moreover every SMTP dial in the trace comes strictly after an MX
lookup, so with ValidateSMTP enabled and ValidateMX disabled the MX
lookup still runs, before the SMTP probe. -/
theorem mx_lookup_runs_iff (w : World) (ctxDone goroutineWon : Bool)
    (input : String) (conf : Config) :
    ((∃ d, Event.lookupMX d ∈ (Verify w ctxDone goroutineWon input conf).2) ↔
      ((conf.ValidateMX || conf.ValidateSMTP) = true ∧
        reachesMX w input conf = true)) ∧
    (∀ a, Event.dial a ∈ (Verify w ctxDone goroutineWon input conf).2 →
      ∃ d t₁ t₂, (Verify w ctxDone goroutineWon input conf).2 =
        t₁ ++ Event.lookupMX d :: t₂ ∧ Event.dial a ∈ t₂) := by
  rw [verify_trace_eq]
  rcases hp : w.parseAddress input with e | addr
  · rw [verifyStages_parse_error w input conf e hp]
    constructor
    · simp [reachesMX, hp]
    · intro a ha
      simp at ha
  · rcases hdm : emailDomain addr with _ | domain
    · rw [verifyStages_no_domain w input addr conf hp hdm]
      constructor
      · simp [reachesMX, hp, hdm]
      · intro a ha
        simp at ha
    · by_cases hpass : passesEarlyStages w domain conf = true
      · rw [verifyStages_reaches_mx w input addr domain conf hp hdm hpass]
        have hreach : reachesMX w input conf = true := by
          simp [reachesMX, hp, hdm, hpass]
        constructor
        · constructor
          · rintro ⟨d, hd⟩
            refine ⟨?_, hreach⟩
            rw [← mx_mem_mxSmtpStage_iff w input domain conf]
            simp only [List.mem_cons, List.mem_append] at hd
            rcases hd with h | h | h | h
            · simp at h
            · have := mem_if_singleton h
              simp at this
            · have := mem_if_singleton h
              simp at this
            · exact ⟨d, h⟩
          · rintro ⟨hgate, _⟩
            obtain ⟨d, hd⟩ := (mx_mem_mxSmtpStage_iff w input domain conf).mpr hgate
            refine ⟨d, ?_⟩
            simp only [List.mem_cons, List.mem_append]
            right; right; right
            exact hd
        · intro a ha
          simp only [List.mem_cons, List.mem_append] at ha
          rcases ha with h | h | h | h
          · simp at h
          · have := mem_if_singleton h
            simp at this
          · have := mem_if_singleton h
            simp at this
          · obtain ⟨t, ht, hmem⟩ := dial_mem_mxSmtpStage w input domain conf a h
            refine ⟨domain,
              Event.parseAddress input ::
                ((if conf.BlockDisposable then [Event.disposableCheck domain] else []) ++
                  (if conf.ValidateDNS then [Event.lookupNS domain] else [])),
              t, ?_, hmem⟩
            rw [ht]
            simp [List.cons_append, List.append_assoc]
      · have hpf : passesEarlyStages w domain conf = false := by
          cases h : passesEarlyStages w domain conf
          · rfl
          · exact absurd h hpass
        have hreach : reachesMX w input conf = false := by
          simp [reachesMX, hp, hdm, hpf]
        unfold passesEarlyStages at hpf
        cases hb : (conf.BlockDisposable && w.disposableDomains.contains domain) with
        | false =>
          rw [hb] at hpf
          simp only [Bool.not_false, Bool.true_and] at hpf
          have hdns : conf.ValidateDNS = true := by
            cases h : conf.ValidateDNS
            · rw [h] at hpf
              simp at hpf
            · rfl
          have hex : exceptOk (w.lookupNS domain) = false := by
            rw [hdns] at hpf
            simpa using hpf
          obtain ⟨e, hns⟩ : ∃ e, w.lookupNS domain = Except.error e := by
            cases h : w.lookupNS domain with
            | error e => exact ⟨e, rfl⟩
            | ok u =>
              rw [h] at hex
              simp [exceptOk] at hex
          rw [verifyStages_dns_error w input addr domain conf e hp hdm hb hdns hns]
          constructor
          · constructor
            · rintro ⟨d, hd⟩
              simp only [List.mem_cons, List.mem_append] at hd
              rcases hd with h | h | h
              · simp at h
              · have := mem_if_singleton h
                simp at this
              · simp at h
            · rintro ⟨_, habs⟩
              rw [hreach] at habs
              simp at habs
          · intro a ha
            simp only [List.mem_cons, List.mem_append] at ha
            rcases ha with h | h | h
            · simp at h
            · have := mem_if_singleton h
              simp at this
            · simp at h
        | true =>
          have hbd : conf.BlockDisposable = true := by
            cases h : conf.BlockDisposable
            · rw [h] at hb
              simp at hb
            · rfl
          have hhit : w.disposableDomains.contains domain = true := by
            rw [hbd] at hb
            simpa using hb
          rw [verifyStages_disposable_hit w input addr domain conf hp hdm hbd hhit]
          constructor
          · constructor
            · rintro ⟨d, hd⟩
              simp at hd
            · rintro ⟨_, habs⟩
              rw [hreach] at habs
              simp at habs
          · intro a ha
            simp at ha

/-- C5 (witness): with ValidateSMTP enabled and ValidateMX disabled,
the MX lookup still occurs. -/
theorem mx_lookup_runs_iff_witness :
    ∃ d, Event.lookupMX d ∈ (Verify wBase false false "a@b.c" confSMTPOnly).2 :=
  (mx_lookup_runs_iff wBase false false "a@b.c" confSMTPOnly).1.mpr
    ⟨by decide, by decide⟩

/-- C1: for every input address, configuration, context state and race
outcome, Verify answers true exactly when the accompanying error is
nil: true with a non-nil error never happens, and false with a nil
error never happens. -/
theorem verify_true_iff_error_nil (w : World) (ctxDone goroutineWon : Bool)
    (input : String) (conf : Config) :
    (Verify w ctxDone goroutineWon input conf).1.1 = true ↔
      (Verify w ctxDone goroutineWon input conf).1.2 = none := by
  unfold Verify
  cases h : verifyStages w input conf with
  | mk chErr tr =>
    cases hc : ctxDone && !goroutineWon
    · cases chErr <;> simp [hc]
    · simp [hc]

/-- C2 (amended): when the context is already done before Verify begins
and the spawned pipeline goroutine has not already completed and won
the select race, Verify returns (false, the context's cancellation
error); however the pipeline goroutine is spawned unconditionally
before the select, so the stages — beginning with the syntax parse —
still execute exactly as they would on a live context. -/
theorem verify_done_ctx_returns_cancel (w : World) (input : String)
    (conf : Config) :
    (Verify w true false input conf).1 = (false, some GoErr.ctxCanceled) ∧
    (Verify w true false input conf).2 = (verifyStages w input conf).2 := by
  unfold Verify
  cases h : verifyStages w input conf with
  | mk chErr tr => simp

/-- C2 (counterexample): on an already-done context Verify does return
(false, the cancellation error), but the claim that no pipeline stage
— not even the syntax stage — executes is false: the goroutine runs
and its syntax stage occurs in the trace, which is therefore
non-empty. -/
theorem verify_done_ctx_still_parses_cex :
    (Verify wBase true false "a@b.c" confNone).1 =
      (false, some GoErr.ctxCanceled) ∧
    (Verify wBase true false "a@b.c" confNone).2 ≠ [] := by decide

/-- C3 (amended): for every address on which mail.ParseAddress fails —
in particular every address lacking an at-sign or with an empty domain
segment — Verify returns false together with the parser's own error,
which is distinct from the sentinel ErrInvalidSyntax, and performs no
network I/O. -/
theorem parse_failure_surfaced_unwrapped (w : World) (input e : String)
    (conf : Config) (goroutineWon : Bool)
    (h : w.parseAddress input = Except.error e) :
    (Verify w false goroutineWon input conf).1 =
      (false, some (GoErr.parseFailure e)) ∧
    (∀ ev ∈ (Verify w false goroutineWon input conf).2,
      ev.isNetwork = false) ∧
    GoErr.parseFailure e ≠ GoErr.invalidFormat := by
  unfold Verify verifyStages
  simp [h, Event.isNetwork]

/-- C3 (witness): the concrete address "plainaddress" lacks an at-sign,
mail.ParseAddress rejects it, and Verify under the full configuration
returns false with the parser's error. -/
theorem parse_failure_surfaced_unwrapped_witness :
    wBase.parseAddress "plainaddress" =
      Except.error ("mail: missing an at-sign") ∧
    (Verify wBase false false "plainaddress" confFull).1 =
      (false, some (GoErr.parseFailure ("mail: missing an at-sign"))) :=
  ⟨rfl,
    (parse_failure_surfaced_unwrapped wBase "plainaddress"
      ("mail: missing an at-sign") confFull false rfl).1⟩

/-- C3 (counterexample): on the concrete address "plainaddress", which
lacks an at-sign, Verify returns false but its error is not the
sentinel ErrInvalidSyntax (it is the parser's own error), refuting the
claim as stated; no network I/O is performed. -/
theorem missing_at_error_not_invalid_format_cex :
    (Verify wBase false false "plainaddress" confFull).1.1 = false ∧
    (Verify wBase false false "plainaddress" confFull).1.2 ≠
      some GoErr.invalidFormat ∧
    (∀ ev ∈ (Verify wBase false false "plainaddress" confFull).2,
      ev.isNetwork = false) := by decide

/-- A sequential composition fails with a given error only if one of
its two stages does. -/
theorem seqStage_err_ne {s₁ s₂ : Option GoErr × List Event} {x : GoErr}
    (h₁ : s₁.1 ≠ some x) (h₂ : s₂.1 ≠ some x) : (seqStage s₁ s₂).1 ≠ some x := by
  unfold seqStage
  rcases s₁ with ⟨e₁, t₁⟩
  cases e₁
  · simpa using h₂
  · simpa using h₁

/-- The SMTP probe surfaces only native network errors. -/
theorem smtpStage_no_disposable (w : World) (input host : String) :
    (smtpStage w input host).1 ≠ some GoErr.disposableEmail := by
  unfold smtpStage
  cases w.dial (mkSMTPAddr host) with
  | error e => simp
  | ok u =>
    cases w.smtpMail (mkSMTPAddr host) fromEmail with
    | error e => simp
    | ok u =>
      cases w.smtpRcpt (mkSMTPAddr host) input with
      | error e => simp
      | ok u => simp

/-- The MX stage never produces the disposable-domain sentinel. -/
theorem mxSmtpStage_no_disposable (w : World) (input domain : String)
    (conf : Config) :
    (mxSmtpStage w input domain conf).1 ≠ some GoErr.disposableEmail := by
  unfold mxSmtpStage
  split
  · cases hmx : w.lookupMX domain with
    | error e => simp
    | ok records =>
      by_cases hl : records.length < 1
      · simp [hl]
      · by_cases hsm : conf.ValidateSMTP = true
        · cases hq : smtpStage w input (selectMX records).Host with
          | mk e tr =>
            have hne := smtpStage_no_disposable w input (selectMX records).Host
            rw [hq] at hne
            simpa [hl, hsm, hq] using hne
        · simp [hl, hsm]
  · simp

/-- The DNS stage never produces the disposable-domain sentinel. -/
theorem dnsStage_no_disposable (w : World) (domain : String) (conf : Config) :
    (dnsStage w domain conf).1 ≠ some GoErr.disposableEmail := by
  unfold dnsStage
  split
  · split <;> simp
  · simp

/-- With BlockDisposable off the disposable stage does nothing. -/
theorem disposableStage_off (w : World) (domain : String) (conf : Config)
    (hb : conf.BlockDisposable = false) :
    disposableStage w domain conf = (none, []) := by
  unfold disposableStage
  rw [hb]
  simp

/-- With BlockDisposable off the pipeline never produces the
disposable-domain sentinel. -/
theorem verifyStages_no_disposable (w : World) (input : String) (conf : Config)
    (hb : conf.BlockDisposable = false) :
    (verifyStages w input conf).1 ≠ some GoErr.disposableEmail := by
  rcases hp : w.parseAddress input with e | addr
  · rw [verifyStages_parse_error w input conf e hp]
    simp
  · rcases hdm : emailDomain addr with _ | domain
    · rw [verifyStages_no_domain w input addr conf hp hdm]
      simp
    · have hne : (seqStage (disposableStage w domain conf)
          (seqStage (dnsStage w domain conf)
            (mxSmtpStage w input domain conf))).1 ≠
          some GoErr.disposableEmail := by
        apply seqStage_err_ne
        · rw [disposableStage_off w domain conf hb]
          simp
        · apply seqStage_err_ne
          · exact dnsStage_no_disposable w domain conf
          · exact mxSmtpStage_no_disposable w input domain conf
      unfold verifyStages
      rw [hp]
      simp only [hdm]
      cases hs : seqStage (disposableStage w domain conf)
        (seqStage (dnsStage w domain conf) (mxSmtpStage w input domain conf)) with
      | mk e' tr' =>
        rw [hs] at hne
        simpa using hne

/-- An error the pipeline goroutine cannot send is never the error of
the whole Verify call, unless it is the cancellation error. -/
theorem verify_err_lift (w : World) (ctxDone goroutineWon : Bool)
    (input : String) (conf : Config) (x : GoErr)
    (hx : x ≠ GoErr.ctxCanceled)
    (h : (verifyStages w input conf).1 ≠ some x) :
    (Verify w ctxDone goroutineWon input conf).1.2 ≠ some x := by
  unfold Verify
  cases hs : verifyStages w input conf with
  | mk chErr tr =>
    rw [hs] at h
    by_cases hc : (ctxDone && !goroutineWon) = true
    · simp only [hc]
      simp
      exact fun hh => hx hh.symm
    · cases chErr with
      | none => simp [hc]
      | some e =>
        simp only [hc]
        simp
        simpa using h

/-- C6: a disposable-cache hit under BlockDisposable makes Verify
return (false, ErrDisposableEmail) with only the parse and the cache
lookup performed (no network I/O); and with BlockDisposable off Verify
never returns ErrDisposableEmail. -/
theorem disposable_check_behavior :
    (∀ (w : World) (input addr domain : String) (conf : Config)
      (goroutineWon : Bool),
      w.parseAddress input = Except.ok addr →
      emailDomain addr = some domain →
      conf.BlockDisposable = true →
      w.disposableDomains.contains domain = true →
      (Verify w false goroutineWon input conf).1 =
        (false, some GoErr.disposableEmail) ∧
      (∀ ev ∈ (Verify w false goroutineWon input conf).2,
        ev.isNetwork = false)) ∧
    (∀ (w : World) (ctxDone goroutineWon : Bool) (input : String)
      (conf : Config),
      conf.BlockDisposable = false →
      (Verify w ctxDone goroutineWon input conf).1.2 ≠
        some GoErr.disposableEmail) := by
  constructor
  · intro w input addr domain conf g hp hd hb hhit
    have hs := verifyStages_disposable_hit w input addr domain conf hp hd hb hhit
    unfold Verify
    rw [hs]
    simp [Event.isNetwork]
  · intro w ctxDone g input conf hb
    exact verify_err_lift w ctxDone g input conf GoErr.disposableEmail
      (by simp) (verifyStages_no_disposable w input conf hb)

/-- C6 (witness): a cached disposable domain is rejected before any
network stage. -/
theorem disposable_check_behavior_witness :
    (Verify wBase false false "x@mailinator.com" confBlock).1 =
      (false, some GoErr.disposableEmail) ∧
    (∀ ev ∈ (Verify wBase false false "x@mailinator.com" confBlock).2,
      ev.isNetwork = false) :=
  disposable_check_behavior.1 wBase "x@mailinator.com" "x@mailinator.com"
    "mailinator.com" confBlock false rfl (by decide) rfl (by decide)

/-- C7: with every switch off, Verify on an address that parses to one
with a non-empty domain returns (true, nil) and its trace is the parse
alone — no network I/O and no cache lookup. -/
theorem all_flags_off_syntax_only (w : World) (input addr domain : String)
    (conf : Config) (goroutineWon : Bool)
    (hp : w.parseAddress input = Except.ok addr)
    (hd : emailDomain addr = some domain)
    (h1 : conf.ValidateMX = false) (h2 : conf.ValidateSMTP = false)
    (h3 : conf.ValidateDNS = false) (h4 : conf.BlockDisposable = false) :
    (Verify w false goroutineWon input conf).1 = (true, none) ∧
    (Verify w false goroutineWon input conf).2 = [Event.parseAddress input] := by
  have hpass : passesEarlyStages w domain conf = true := by
    simp [passesEarlyStages, h3, h4]
  have hs := verifyStages_reaches_mx w input addr domain conf hp hd hpass
  have hmx : mxSmtpStage w input domain conf = (none, []) := by
    unfold mxSmtpStage
    rw [h1, h2]
    simp
  rw [hmx, h3, h4] at hs
  simp only [if_false] at hs
  unfold Verify
  rw [hs]
  simp

/-- C7 (witness): a concrete valid address under the all-off
configuration yields (true, nil) with a parse-only trace. -/
theorem all_flags_off_syntax_only_witness :
    (Verify wBase false false "a@b.c" confNone).1 = (true, none) ∧
    (Verify wBase false false "a@b.c" confNone).2 =
      [Event.parseAddress "a@b.c"] :=
  all_flags_off_syntax_only wBase "a@b.c" "a@b.c" "b.c" confNone false rfl
    (by decide) rfl rfl rfl rfl

/-- C8: when the fetch of a refresh tick fails, the tick leaves the
disposable-domain cache exactly as it was — same set, same membership
answers — the error is returned by refresh but discarded by the loop,
and Verify behaves identically against the post-tick cache and the
pre-tick cache. -/
theorem refresh_failure_keeps_cache (w : World) (cache : List String)
    (e : String) (h : w.fetch = Except.error e) :
    tick w cache = cache ∧
    (∀ d, (tick w cache).contains d = cache.contains d) ∧
    (refresh w cache).2 = some e ∧
    (∀ (ctxDone goroutineWon : Bool) (input : String) (conf : Config),
      Verify { w with disposableDomains := tick w cache }
          ctxDone goroutineWon input conf =
        Verify { w with disposableDomains := cache }
          ctxDone goroutineWon input conf) := by
  have ht : tick w cache = cache := by
    simp [tick, refresh, h]
  refine ⟨ht, fun d => by rw [ht], ?_, fun cd g input conf => by rw [ht]⟩
  simp [refresh, h]

/-- C8 (witness): a failing fetch leaves the concrete one-element cache
untouched while refresh reports the error. -/
theorem refresh_failure_keeps_cache_witness :
    tick wBase ["mailinator.com"] = ["mailinator.com"] ∧
    (refresh wBase ["mailinator.com"]).2 = some ("network down") :=
  ⟨(refresh_failure_keeps_cache wBase ["mailinator.com"] ("network down")
      rfl).1,
    (refresh_failure_keeps_cache wBase ["mailinator.com"] ("network down")
      rfl).2.2.1⟩

/-- The DNS stage reads only the ValidateDNS switch. -/
theorem dnsStage_congr (w : World) (domain : String) (c c' : Config)
    (h : c.ValidateDNS = c'.ValidateDNS) :
    dnsStage w domain c = dnsStage w domain c' := by
  unfold dnsStage
  rw [h]

/-- The MX stage reads only the ValidateMX and ValidateSMTP switches. -/
theorem mxSmtpStage_congr (w : World) (input domain : String) (c c' : Config)
    (h1 : c.ValidateMX = c'.ValidateMX) (h2 : c.ValidateSMTP = c'.ValidateSMTP) :
    mxSmtpStage w input domain c = mxSmtpStage w input domain c' := by
  unfold mxSmtpStage
  rw [h1, h2]

/-- With an empty cache the pipeline's channel value is the same as if
BlockDisposable were off. -/
theorem verifyStages_err_empty_cache_eq (w : World) (input : String)
    (conf : Config) (h : w.disposableDomains = []) :
    (verifyStages w input conf).1 =
      (verifyStages w input { conf with BlockDisposable := false }).1 := by
  rcases hp : w.parseAddress input with e | addr
  · rw [verifyStages_parse_error w input conf e hp,
      verifyStages_parse_error w input _ e hp]
  · rcases hdm : emailDomain addr with _ | domain
    · rw [verifyStages_no_domain w input addr conf hp hdm,
        verifyStages_no_domain w input addr _ hp hdm]
    · have hc : w.disposableDomains.contains domain = false := by
        rw [h]
        rfl
      have hd1 : disposableStage w domain conf =
          (none, if conf.BlockDisposable then [Event.disposableCheck domain]
            else []) :=
        disposableStage_pass w domain conf (by rw [hc, Bool.and_false])
      have hd2 : disposableStage w domain
          { conf with BlockDisposable := false } = (none, []) :=
        disposableStage_off w domain _ rfl
      have hdns : dnsStage w domain { conf with BlockDisposable := false } =
          dnsStage w domain conf :=
        dnsStage_congr w domain _ conf rfl
      have hmxc : mxSmtpStage w input domain
          { conf with BlockDisposable := false } =
          mxSmtpStage w input domain conf :=
        mxSmtpStage_congr w input domain _ conf rfl rfl
      unfold verifyStages
      rw [hp]
      simp only [hdm]
      rw [hd1, hd2, hdns, hmxc]
      cases hs : seqStage (dnsStage w domain conf)
          (mxSmtpStage w input domain conf) with
      | mk e2 t2 =>
        simp [seqStage]

/-- With an empty cache the pipeline never produces the
disposable-domain sentinel. -/
theorem verifyStages_empty_cache_no_disposable (w : World) (input : String)
    (conf : Config) (h : w.disposableDomains = []) :
    (verifyStages w input conf).1 ≠ some GoErr.disposableEmail := by
  rw [verifyStages_err_empty_cache_eq w input conf h]
  exact verifyStages_no_disposable w input _ rfl

/-- Verify calls that agree on the channel value agree on the whole
result. -/
theorem verify_result_congr (w : World) (ctxDone goroutineWon : Bool)
    (input : String) (c c' : Config)
    (h : (verifyStages w input c).1 = (verifyStages w input c').1) :
    (Verify w ctxDone goroutineWon input c).1 =
      (Verify w ctxDone goroutineWon input c').1 := by
  unfold Verify
  cases h1 : verifyStages w input c with
  | mk e1 t1 =>
    cases h2 : verifyStages w input c' with
    | mk e2 t2 =>
      rw [h1, h2] at h
      have he : e1 = e2 := h
      subst he
      by_cases hc : (ctxDone && !goroutineWon) = true
      · simp [hc]
      · cases e1 <;> simp [hc]

/-- C9: with a nil (empty) disposable-domain cache, as after a failed
initial fetch, Verify never returns ErrDisposableEmail and does not
fault: with BlockDisposable enabled it returns exactly what it would
return with the check disabled, proceeding to the later stages. -/
theorem empty_cache_never_faults (w : World) (ctxDone goroutineWon : Bool)
    (input : String) (conf : Config) (h : w.disposableDomains = []) :
    (Verify w ctxDone goroutineWon input conf).1.2 ≠
      some GoErr.disposableEmail ∧
    (Verify w ctxDone goroutineWon input conf).1 =
      (Verify w ctxDone goroutineWon input
        { conf with BlockDisposable := false }).1 := by
  constructor
  · exact verify_err_lift w ctxDone goroutineWon input conf
      GoErr.disposableEmail (by simp)
      (verifyStages_empty_cache_no_disposable w input conf h)
  · exact verify_result_congr w ctxDone goroutineWon input conf _
      (verifyStages_err_empty_cache_eq w input conf h)

/-- C9 (witness): on the empty-cache world, a Verify call with
BlockDisposable enabled does not return ErrDisposableEmail and equals
the call with the check disabled. -/
theorem empty_cache_never_faults_witness :
    (Verify wEmptyCache false false "x@mailinator.com" confBlock).1.2 ≠
      some GoErr.disposableEmail ∧
    (Verify wEmptyCache false false "x@mailinator.com" confBlock).1 =
      (Verify wEmptyCache false false "x@mailinator.com"
        { confBlock with BlockDisposable := false }).1 :=
  empty_cache_never_faults wEmptyCache false false "x@mailinator.com"
    confBlock rfl

/-- Every event of a sequential composition comes from one of its two
stages. -/
theorem mem_seqStage {e : Event} {s₁ s₂ : Option GoErr × List Event}
    (h : e ∈ (seqStage s₁ s₂).2) : e ∈ s₁.2 ∨ e ∈ s₂.2 := by
  unfold seqStage at h
  rcases s₁ with ⟨e₁, t₁⟩
  cases e₁ with
  | none =>
    rcases List.mem_append.mp h with h2 | h2
    · exact Or.inl h2
    · exact Or.inr h2
  | some x => exact Or.inl h

/-- The disposable stage only ever checks the domain it was given. -/
theorem events_disposableStage (w : World) (domain : String) (conf : Config) :
    ∀ e ∈ (disposableStage w domain conf).2,
      e = Event.disposableCheck domain := by
  intro e he
  unfold disposableStage at he
  split at he
  · split at he
    · simpa using he
    · simpa using he
  · simp at he

/-- The DNS stage only ever looks up the domain it was given. -/
theorem events_dnsStage (w : World) (domain : String) (conf : Config) :
    ∀ e ∈ (dnsStage w domain conf).2, e = Event.lookupNS domain := by
  intro e he
  unfold dnsStage at he
  split at he
  · split at he
    · simpa using he
    · simpa using he
  · simp at he

/-- The SMTP probe dials the given host, sends MAIL FROM with the fixed
sender and RCPT TO with the raw input string, and nothing else. -/
theorem events_smtpStage (w : World) (input host : String) :
    ∀ e ∈ (smtpStage w input host).2,
      e = Event.dial (mkSMTPAddr host) ∨ e = Event.smtpMail fromEmail ∨
        e = Event.smtpRcpt input := by
  intro e he
  unfold smtpStage at he
  split at he
  · simp at he
    simp [he]
  · split at he
    · simp at he
      rcases he with h | h <;> simp [h]
    · split at he
      · simp at he
        rcases he with h | h | h <;> simp [h]
      · simp at he
        rcases he with h | h | h <;> simp [h]

/-- Every MX-stage event is the MX lookup of the given domain or an
SMTP-probe event for the raw input. -/
theorem events_mxSmtpStage (w : World) (input domain : String)
    (conf : Config) :
    ∀ e ∈ (mxSmtpStage w input domain conf).2,
      e = Event.lookupMX domain ∨ (∃ a, e = Event.dial a) ∨
        e = Event.smtpMail fromEmail ∨ e = Event.smtpRcpt input := by
  intro e he
  unfold mxSmtpStage at he
  split at he
  · split at he
    · simp at he
      simp [he]
    · split at he
      · simp at he
        simp [he]
      · split at he
        · split at he
          rename_i e2 tr heq
          simp only [List.mem_cons] at he
          rcases he with h | h
          · exact Or.inl h
          · have hev := events_smtpStage w input _ e (by rw [heq]; exact h)
            rcases hev with h2 | h2 | h2
            · exact Or.inr (Or.inl ⟨_, h2⟩)
            · exact Or.inr (Or.inr (Or.inl h2))
            · exact Or.inr (Or.inr (Or.inr h2))
        · simp at he
          simp [he]
  · simp at he

/-- Every pipeline event on a successfully parsed input is the parse of
the raw input, a check or lookup of the domain extracted from the
parsed address, or an SMTP-probe event carrying the fixed sender or
the raw input. -/
theorem events_verifyStages (w : World) (input addr domain : String)
    (conf : Config) (hp : w.parseAddress input = Except.ok addr)
    (hd : emailDomain addr = some domain) :
    ∀ e ∈ (verifyStages w input conf).2,
      e = Event.parseAddress input ∨ e = Event.disposableCheck domain ∨
        e = Event.lookupNS domain ∨ e = Event.lookupMX domain ∨
        (∃ a, e = Event.dial a) ∨ e = Event.smtpMail fromEmail ∨
        e = Event.smtpRcpt input := by
  intro e he
  unfold verifyStages at he
  rw [hp] at he
  simp only [hd] at he
  cases hs : seqStage (disposableStage w domain conf)
      (seqStage (dnsStage w domain conf) (mxSmtpStage w input domain conf)) with
  | mk e' tr' =>
    rw [hs] at he
    simp only [List.mem_cons] at he
    rcases he with h | h
    · exact Or.inl h
    · have h2 : e ∈ (seqStage (disposableStage w domain conf)
          (seqStage (dnsStage w domain conf)
            (mxSmtpStage w input domain conf))).2 := by
        rw [hs]
        exact h
      rcases mem_seqStage h2 with h3 | h3
      · exact Or.inr (Or.inl (events_disposableStage w domain conf e h3))
      · rcases mem_seqStage h3 with h4 | h4
        · exact Or.inr (Or.inr (Or.inl (events_dnsStage w domain conf e h4)))
        · rcases events_mxSmtpStage w input domain conf e h4 with
            h5 | h5 | h5 | h5
          · exact Or.inr (Or.inr (Or.inr (Or.inl h5)))
          · exact Or.inr (Or.inr (Or.inr (Or.inr (Or.inl h5))))
          · exact Or.inr (Or.inr (Or.inr (Or.inr (Or.inr (Or.inl h5)))))
          · exact Or.inr (Or.inr (Or.inr (Or.inr (Or.inr (Or.inr h5)))))

/-- C10: on a successfully parsed input, the disposable, NS and MX
stages all operate on the domain extracted after the last at-sign of
the parsed (normalized) address, while every RCPT TO of the SMTP probe
carries the original raw input string — so when the raw form differs
from the parsed address the two ends of the pipeline operate on
different strings. -/
theorem stages_use_parsed_domain_rcpt_raw (w : World)
    (ctxDone goroutineWon : Bool) (input addr domain : String) (conf : Config)
    (hp : w.parseAddress input = Except.ok addr)
    (hd : emailDomain addr = some domain) :
    (∀ x, Event.disposableCheck x ∈
      (Verify w ctxDone goroutineWon input conf).2 → x = domain) ∧
    (∀ x, Event.lookupNS x ∈
      (Verify w ctxDone goroutineWon input conf).2 → x = domain) ∧
    (∀ x, Event.lookupMX x ∈
      (Verify w ctxDone goroutineWon input conf).2 → x = domain) ∧
    (∀ x, Event.smtpRcpt x ∈
      (Verify w ctxDone goroutineWon input conf).2 → x = input) := by
  rw [verify_trace_eq w ctxDone goroutineWon input conf]
  refine ⟨?_, ?_, ?_, ?_⟩ <;> intro x hx <;>
    rcases events_verifyStages w input addr domain conf hp hd _ hx with
      h | h | h | h | ⟨a, h⟩ | h | h <;>
    simpa using h

/-- C10 (witness): for the display-name input the MX lookup uses the
parsed domain while RCPT TO carries the raw input, two different
strings, and both events do occur in the trace. -/
theorem stages_use_parsed_domain_rcpt_raw_witness :
    (∀ x, Event.lookupMX x ∈
      (Verify wBase false false "Bob <bob@x.com>" confSMTPOnly).2 →
      x = "x.com") ∧
    (∀ x, Event.smtpRcpt x ∈
      (Verify wBase false false "Bob <bob@x.com>" confSMTPOnly).2 →
      x = "Bob <bob@x.com>") ∧
    Event.lookupMX "x.com" ∈
      (Verify wBase false false "Bob <bob@x.com>" confSMTPOnly).2 ∧
    Event.smtpRcpt "Bob <bob@x.com>" ∈
      (Verify wBase false false "Bob <bob@x.com>" confSMTPOnly).2 :=
  ⟨(stages_use_parsed_domain_rcpt_raw wBase false false "Bob <bob@x.com>"
      "bob@x.com" "x.com" confSMTPOnly rfl (by decide)).2.2.1,
    (stages_use_parsed_domain_rcpt_raw wBase false false "Bob <bob@x.com>"
      "bob@x.com" "x.com" confSMTPOnly rfl (by decide)).2.2.2,
    by decide, by decide⟩

end GoEmailVerifier
